import Mathlib

/-!
Verification development for the catdex-api service.

The embedding follows `src/main.rs` and `src/models.rs`. Each HTTP handler
is modelled as a pure function from its request input and an environment
of fallible-operation outcomes (pool acquisition, blocking-pool dispatch,
query result, file persistence) to a handler outcome paired with an
explicit trace of side effects (files written, pool connections acquired,
queries executed, rows inserted).
-/

namespace Catdex

/-- `Cat` from `src/models.rs`: `id: i32`, `name: String`, `image_path: String`. -/
structure Cat where
  id : Int
  name : String
  image_path : String
deriving DecidableEq

/-- `NewCat` from `src/models.rs`: the insertable shape without `id`. -/
structure NewCat where
  name : String
  image_path : String
deriving DecidableEq

/-- The `UserError` variants referenced by `src/main.rs`
(the enum itself lives in `src/errors.rs`). -/
inductive UserError where
  | ValidationError
  | DBPoolGetError
  | NotFoundError
  | UnexpectedError
deriving DecidableEq

/-- Modelled from the spec: the HTTP status mapping of `UserError`,
implemented by its `ResponseError` impl in `src/errors.rs`, which is not
among the provided sources. Per spec section 7: `ValidationError` is HTTP
400, `PoolExhausted`/`DBPoolGetError` is HTTP 500, `NotFoundError` is HTTP
404, `UnexpectedError` is HTTP 500. -/
def statusOf : UserError → Nat
  | .ValidationError => 400
  | .DBPoolGetError => 500
  | .NotFoundError => 404
  | .UnexpectedError => 500

/-- Outcome of running one handler: a success payload, a typed error
converted to a response at the handler boundary, or a panic of the handler
task (`.expect` in the source), which produces no HTTP response. -/
inductive HandlerOutcome (α : Type) where
  | success (a : α)
  | failure (e : UserError)
  | aborted
deriving DecidableEq

/-- HTTP status of an outcome, given the endpoint's success code;
`none` when the handler aborted and no response was produced. -/
def httpOf {α : Type} (okCode : Nat) : HandlerOutcome α → Option Nat
  | .success _ => some okCode
  | .failure e => some (statusOf e)
  | .aborted => none

/-- Trace of the externally visible side effects of one request. -/
structure Effects where
  filesWritten : List String := []
  poolAcquired : Nat := 0
  queriesRun : Nat := 0
  inserted : List NewCat := []
deriving DecidableEq

/-- The empty effect trace. -/
def noEff : Effects := {}

/-- Environment for `cats_endpoint`: whether `pool.get()` succeeds, whether
the `web::block` dispatch succeeds, whether the `load` query succeeds. -/
structure CatsEnv where
  poolOk : Bool
  blockOk : Bool
  loadOk : Bool
deriving DecidableEq

/-- `cats_endpoint` (main.rs lines 27-40). `pool.get().expect(..)` aborts
the handler on pool failure; a failed blocking dispatch maps to
`UnexpectedError`; a failed `load` maps to `DBPoolGetError` (as written at
lines 35-38); on success the first 100 rows are returned. -/
def cats_endpoint (db : List Cat) (env : CatsEnv) : HandlerOutcome (List Cat) × Effects :=
  if !env.poolOk then
    (.aborted, noEff)
  else if !env.blockOk then
    (.failure .UnexpectedError, { poolAcquired := 1 })
  else if !env.loadOk then
    (.failure .DBPoolGetError, { poolAcquired := 1, queriesRun := 1 })
  else
    (.success (db.take 100), { poolAcquired := 1, queriesRun := 1 })

/-- The `validator` range check on `CatEndpointPath.id`
(`range(min = 1, max = 150)`, main.rs line 44). -/
def catPathValidate (qid : Int) : Bool :=
  decide (1 ≤ qid) && decide (qid ≤ 150)

/-- Environment for `cat_endpoint`: pool acquisition, blocking dispatch,
and whether the query runs without a non-`NotFound` database error. -/
structure CatEnv where
  poolOk : Bool
  blockOk : Bool
  queryOk : Bool
deriving DecidableEq

/-- `cats.filter(id.eq(query_id)).first::<Cat>` (main.rs line 63): the
first row whose `id` column equals `query_id`, if any. -/
def queryFirstById (db : List Cat) (qid : Int) : Option Cat :=
  (db.filter (fun c => c.id == qid)).head?

/-- `cat_endpoint` (main.rs lines 48-80), after path extraction: validate
the range, then `pool.get()` (`DBPoolGetError` on failure), then
`web::block` (`UnexpectedError` on dispatch failure), then the query
(`NotFoundError` when no row matches, `UnexpectedError` on any other
database error). -/
def cat_endpoint (db : List Cat) (qid : Int) (env : CatEnv) : HandlerOutcome Cat × Effects :=
  if !catPathValidate qid then
    (.failure .ValidationError, noEff)
  else if !env.poolOk then
    (.failure .DBPoolGetError, noEff)
  else if !env.blockOk then
    (.failure .UnexpectedError, { poolAcquired := 1 })
  else if !env.queryOk then
    (.failure .UnexpectedError, { poolAcquired := 1, queriesRun := 1 })
  else
    match queryFirstById db qid with
    | some c => (.success c, { poolAcquired := 1, queriesRun := 1 })
    | none => (.failure .NotFoundError, { poolAcquired := 1, queriesRun := 1 })

/-- Digit-list accumulator of a base-10 natural number; `none` on any
non-digit character. -/
def digitsToNat : List Char → Nat → Option Nat
  | [], acc => some acc
  | c :: cs, acc =>
      if c.isDigit then digitsToNat cs (acc * 10 + (c.toNat - 48)) else none

/-- Integer syntax accepted by Rust's `i32::from_str` (an optional sign
followed by at least one decimal digit), before the width check. -/
def parseIntStr : List Char → Option Int
  | [] => none
  | '-' :: cs =>
      if cs = [] then none else (digitsToNat cs 0).map (fun n => -(n : Int))
  | '+' :: cs =>
      if cs = [] then none else (digitsToNat cs 0).map (fun n => (n : Int))
  | cs => (digitsToNat cs 0).map (fun n => (n : Int))

/-- Parse of the `{id}` path segment as an `i32` by serde during
`web::Path<CatEndpointPath>` extraction: integer syntax plus the `i32`
range check (values outside it are a parse error in Rust). -/
def parseI32 (s : String) : Option Int :=
  match parseIntStr s.data with
  | none => none
  | some n => if -2147483648 ≤ n ∧ n ≤ 2147483647 then some n else none

/-- The routed get-by-id endpoint: `web::Path` extraction first, whose
failure is turned into `ValidationError` by the `PathConfig` error handler
installed in `api_config` (main.rs lines 180-182), then `cat_endpoint`. -/
def cat_route (db : List Cat) (seg : String) (env : CatEnv) : HandlerOutcome Cat × Effects :=
  match parseI32 seg with
  | none => (.failure .ValidationError, noEff)
  | some qid => cat_endpoint db qid env

/-- A multipart body as `awmp::Parts` exposes it: file parts as
(field name, file name) pairs and text parts as (field name, value)
pairs, both in part order. -/
structure Parts where
  files : List (String × String)
  texts : List (String × String)
deriving DecidableEq

/-- Environment for `add_cat_endpoint`: whether `persist_in` succeeds,
pool acquisition, blocking dispatch, and whether the insert succeeds. -/
structure AddEnv where
  persistOk : Bool
  poolOk : Bool
  blockOk : Bool
  insertOk : Bool
deriving DecidableEq

/-- `parts.files.take("image").pop()` (main.rs lines 86-89): of the file
parts named `field`, the last one, if any. -/
def takeLastFile (files : List (String × String)) (field : String) : Option String :=
  ((files.filter (fun f => f.1 == field)).map (fun f => f.2)).getLast?

/-- `HashMap::insert` on an association list: replaces the value at an
existing key, otherwise appends the binding. -/
def hmInsert : List (String × String) → String → String → List (String × String)
  | [], k, v => [(k, v)]
  | (ka, va) :: rest, k, v =>
      if ka == k then (ka, v) :: rest else (ka, va) :: hmInsert rest k v

/-- `HashMap::get` on an association list. -/
def hmLookup : List (String × String) → String → Option String
  | [], _ => none
  | (ka, va) :: rest, k => if ka == k then some va else hmLookup rest k

/-- `parts.texts.as_pairs().into_iter().collect::<HashMap<_, _>>()`
(main.rs line 96): fold the text pairs, in part order, into a map by
repeated insertion. -/
def collectPairs (ps : List (String × String)) : List (String × String) :=
  ps.foldl (fun m p => hmInsert m p.1 p.2) []

/-- `str::strip_prefix(char)` (main.rs line 113): `some` of the remainder
when the string starts with `c`, otherwise `none`. -/
def stripPrefixChar (s : String) (c : Char) : Option String :=
  match s.data with
  | [] => none
  | a :: rest => if a == c then some (String.mk rest) else none

/-- Character-list version of "is a prefix of". -/
def charsPrefix : List Char → List Char → Bool
  | [], _ => true
  | _ :: _, [] => false
  | a :: as, b :: bs => a == b && charsPrefix as bs

/-- String `s` starts with string `p`. -/
def strStartsWith (s p : String) : Bool :=
  charsPrefix p.data s.data

/-- `add_cat_endpoint` (main.rs lines 82-137), in source order: take the
last `image` file part and persist it under `./image` (`ValidationError`
when the part is missing or persistence fails); collect the text fields
into a map; `pool.get()` (`DBPoolGetError` on failure); look up `name`
(`ValidationError` when absent); strip the leading relative-path marker
from the persisted path (`ValidationError` if it is absent); then
`web::block` the insert, mapping a dispatch failure to `DBPoolGetError`
and a rejected insert to `ValidationError` (as written at lines 127-134);
`201 Created` on success. -/
def add_cat_endpoint (parts : Parts) (env : AddEnv) : HandlerOutcome Unit × Effects :=
  match takeLastFile parts.files "image" with
  | none => (.failure .ValidationError, noEff)
  | some fname =>
    if !env.persistOk then
      (.failure .ValidationError, noEff)
    else
      let file_path := "./image/" ++ fname
      let text_fields := collectPairs parts.texts
      if !env.poolOk then
        (.failure .DBPoolGetError, { filesWritten := [file_path] })
      else
        match hmLookup text_fields "name" with
        | none =>
            (.failure .ValidationError, { filesWritten := [file_path], poolAcquired := 1 })
        | some nm =>
          match stripPrefixChar file_path '.' with
          | none =>
              (.failure .ValidationError, { filesWritten := [file_path], poolAcquired := 1 })
          | some ipath =>
            let new_cat : NewCat := { name := nm, image_path := ipath }
            if !env.blockOk then
              (.failure .DBPoolGetError, { filesWritten := [file_path], poolAcquired := 1 })
            else if !env.insertOk then
              (.failure .ValidationError,
                { filesWritten := [file_path], poolAcquired := 1, queriesRun := 1 })
            else
              (.success (),
                { filesWritten := [file_path], poolAcquired := 1, queriesRun := 1,
                  inserted := [new_cat] })

/-- The spec's "last value wins" resolution for a repeated text field:
the value of the last occurrence of key `k` in part order. -/
def lastOccurrence (ps : List (String × String)) (k : String) : Option String :=
  (ps.reverse.find? (fun p => p.1 == k)).map (fun p => p.2)

/-- C6: with a connection available and the dispatch and query succeeding,
the list endpoint returns exactly the first 100 rows of the store with
status 200, and that result never holds more than 100 records. -/
theorem c6_list_cap (db : List Cat) (env : CatsEnv)
    (hp : env.poolOk = true) (hb : env.blockOk = true) (hl : env.loadOk = true) :
    cats_endpoint db env = (.success (db.take 100), { poolAcquired := 1, queriesRun := 1 })
    ∧ (db.take 100).length ≤ 100
    ∧ httpOf 200 (cats_endpoint db env).1 = some 200 := by
  have h1 : cats_endpoint db env
      = (.success (db.take 100), { poolAcquired := 1, queriesRun := 1 }) := by
    simp [cats_endpoint, hp, hb, hl]
  refine ⟨h1, ?_, by rw [h1]; rfl⟩
  simp [List.length_take]

/-- Witness for C6 at a concrete store and environment. -/
theorem c6_witness :
    cats_endpoint [⟨1, "Tom", "/image/tom.png"⟩] ⟨true, true, true⟩
      = (.success (([⟨1, "Tom", "/image/tom.png"⟩] : List Cat).take 100),
          { poolAcquired := 1, queriesRun := 1 })
    ∧ (([⟨1, "Tom", "/image/tom.png"⟩] : List Cat).take 100).length ≤ 100
    ∧ httpOf 200 (cats_endpoint [⟨1, "Tom", "/image/tom.png"⟩] ⟨true, true, true⟩).1 = some 200 :=
  c6_list_cap [⟨1, "Tom", "/image/tom.png"⟩] ⟨true, true, true⟩ rfl rfl rfl

/-- C5 counterexample: on the list endpoint, a pool-acquisition failure
does not surface `DBPoolGetError` as HTTP 500 — the handler aborts
(`pool.get().expect(..)`, main.rs line 28) and no response is produced. -/
theorem c5_counterexample :
    (cats_endpoint [] ⟨false, true, true⟩).1 = .aborted
    ∧ (cats_endpoint [] ⟨false, true, true⟩).1 ≠ .failure .DBPoolGetError
    ∧ httpOf 200 (cats_endpoint [] ⟨false, true, true⟩).1 ≠ some 500 := by decide

/-- C5 amended: on the get-by-id and create endpoints, failure to obtain a
pool connection yields `DBPoolGetError`, surfaced as HTTP 500; on the list
endpoint it instead aborts the handler with no response. -/
theorem c5_amended (db : List Cat) (qid : Int) (parts : Parts)
    (envC : CatEnv) (envA : AddEnv) (envL : CatsEnv) (f : String)
    (hv : catPathValidate qid = true) (hpc : envC.poolOk = false)
    (hf : takeLastFile parts.files "image" = some f) (hper : envA.persistOk = true)
    (hpa : envA.poolOk = false) (hpl : envL.poolOk = false) :
    cat_endpoint db qid envC = (.failure .DBPoolGetError, noEff)
    ∧ httpOf 200 (cat_endpoint db qid envC).1 = some 500
    ∧ add_cat_endpoint parts envA
        = (.failure .DBPoolGetError, { filesWritten := ["./image/" ++ f] })
    ∧ httpOf 201 (add_cat_endpoint parts envA).1 = some 500
    ∧ (cats_endpoint db envL).1 = .aborted := by
  have h1 : cat_endpoint db qid envC = (.failure .DBPoolGetError, noEff) := by
    simp [cat_endpoint, hv, hpc]
  have h2 : add_cat_endpoint parts envA
      = (.failure .DBPoolGetError, { filesWritten := ["./image/" ++ f] }) := by
    simp [add_cat_endpoint, hf, hper, hpa]
  refine ⟨h1, by rw [h1]; rfl, h2, by rw [h2]; rfl, ?_⟩
  simp [cats_endpoint, hpl]

/-- Witness for C5 (amended) at concrete requests and environments. -/
theorem c5_witness :
    cat_endpoint [] 1 ⟨false, true, true⟩ = (.failure .DBPoolGetError, noEff)
    ∧ httpOf 200 (cat_endpoint [] 1 ⟨false, true, true⟩).1 = some 500
    ∧ add_cat_endpoint ⟨[("image", "c.png")], []⟩ ⟨true, false, true, true⟩
        = (.failure .DBPoolGetError, { filesWritten := ["./image/" ++ "c.png"] })
    ∧ httpOf 201 (add_cat_endpoint ⟨[("image", "c.png")], []⟩ ⟨true, false, true, true⟩).1
        = some 500
    ∧ (cats_endpoint [] ⟨false, true, true⟩).1 = .aborted :=
  c5_amended [] 1 ⟨[("image", "c.png")], []⟩ ⟨false, true, true⟩ ⟨true, false, true, true⟩
    ⟨false, true, true⟩ "c.png" (by decide) rfl (by decide) rfl rfl rfl

/-- C3: a get-by-id request whose path segment does not parse as an `i32`,
or parses to an integer outside [1, 150], fails with `ValidationError`
(HTTP 400) and neither acquires a pool connection nor runs a query. -/
theorem c3_invalid_id (db : List Cat) (seg : String) (env : CatEnv)
    (h : parseI32 seg = none ∨ ∃ n, parseI32 seg = some n ∧ (n < 1 ∨ 150 < n)) :
    cat_route db seg env = (.failure .ValidationError, noEff)
    ∧ httpOf 200 (cat_route db seg env).1 = some 400
    ∧ (cat_route db seg env).2.poolAcquired = 0
    ∧ (cat_route db seg env).2.queriesRun = 0 := by
  have h1 : cat_route db seg env = (.failure .ValidationError, noEff) := by
    rcases h with h | ⟨n, hn, hr⟩
    · simp [cat_route, h]
    · have hv : catPathValidate n = false := by
        unfold catPathValidate
        rcases hr with hr | hr
        · have hx : ¬ (1 ≤ n) := by omega
          simp [hx]
        · have hx : ¬ (n ≤ 150) := by omega
          simp [hx]
      simp [cat_route, hn, cat_endpoint, hv]
  exact ⟨h1, by rw [h1]; rfl, by rw [h1]; rfl, by rw [h1]; rfl⟩

/-- Witness for C3 at the out-of-range segment "151". -/
theorem c3_witness :
    cat_route [] "151" ⟨true, true, true⟩ = (.failure .ValidationError, noEff)
    ∧ httpOf 200 (cat_route [] "151" ⟨true, true, true⟩).1 = some 400
    ∧ (cat_route [] "151" ⟨true, true, true⟩).2.poolAcquired = 0
    ∧ (cat_route [] "151" ⟨true, true, true⟩).2.queriesRun = 0 :=
  c3_invalid_id [] "151" ⟨true, true, true⟩
    (Or.inr ⟨151, by decide, Or.inr (by decide)⟩)

/-- A row returned by `queryFirstById` has the queried primary key. -/
theorem queryFirstById_id (db : List Cat) (qid : Int) (c : Cat)
    (h : queryFirstById db qid = some c) : c.id = qid := by
  induction db with
  | nil => simp [queryFirstById] at h
  | cons a rest ih =>
    rw [queryFirstById, List.filter_cons] at h
    by_cases ha : (a.id == qid) = true
    · simp [ha] at h
      subst h
      exact eq_of_beq ha
    · simp [Bool.eq_false_iff.mpr ha] at h
      exact ih (by rw [queryFirstById]; simpa using h)

/-- C4: for a valid id with pool and dispatch succeeding, get-by-id returns
the first row whose primary key equals the id (status 200) when one exists,
fails with `NotFoundError` (HTTP 404) when none does, and fails with
`UnexpectedError` (HTTP 500) on any other database error. -/
theorem c4_get_by_id (db : List Cat) (qid : Int) (env : CatEnv)
    (h1 : 1 ≤ qid) (h2 : qid ≤ 150) (hp : env.poolOk = true) (hb : env.blockOk = true) :
    (env.queryOk = true →
      (∀ c, queryFirstById db qid = some c →
          cat_endpoint db qid env = (.success c, { poolAcquired := 1, queriesRun := 1 })
          ∧ c.id = qid
          ∧ httpOf 200 (cat_endpoint db qid env).1 = some 200)
      ∧ (queryFirstById db qid = none →
          cat_endpoint db qid env = (.failure .NotFoundError, { poolAcquired := 1, queriesRun := 1 })
          ∧ httpOf 200 (cat_endpoint db qid env).1 = some 404))
    ∧ (env.queryOk = false →
        cat_endpoint db qid env = (.failure .UnexpectedError, { poolAcquired := 1, queriesRun := 1 })
        ∧ httpOf 200 (cat_endpoint db qid env).1 = some 500) := by
  have hv : catPathValidate qid = true := by
    unfold catPathValidate
    simp [h1, h2]
  constructor
  · intro hq
    constructor
    · intro c hc
      have he : cat_endpoint db qid env
          = (.success c, { poolAcquired := 1, queriesRun := 1 }) := by
        simp [cat_endpoint, hv, hp, hb, hq, hc]
      exact ⟨he, queryFirstById_id db qid c hc, by rw [he]; rfl⟩
    · intro hc
      have he : cat_endpoint db qid env
          = (.failure .NotFoundError, { poolAcquired := 1, queriesRun := 1 }) := by
        simp [cat_endpoint, hv, hp, hb, hq, hc]
      exact ⟨he, by rw [he]; rfl⟩
  · intro hq
    have he : cat_endpoint db qid env
        = (.failure .UnexpectedError, { poolAcquired := 1, queriesRun := 1 }) := by
      simp [cat_endpoint, hv, hp, hb, hq]
    exact ⟨he, by rw [he]; rfl⟩

/-- Witness for C4: a store holding the row with id 1, queried at id 1. -/
theorem c4_witness :
    cat_endpoint [⟨1, "Tom", "/image/tom.png"⟩] 1 ⟨true, true, true⟩
      = (.success ⟨1, "Tom", "/image/tom.png"⟩, { poolAcquired := 1, queriesRun := 1 })
    ∧ (⟨1, "Tom", "/image/tom.png"⟩ : Cat).id = 1
    ∧ httpOf 200 (cat_endpoint [⟨1, "Tom", "/image/tom.png"⟩] 1 ⟨true, true, true⟩).1
        = some 200 :=
  ((c4_get_by_id [⟨1, "Tom", "/image/tom.png"⟩] 1 ⟨true, true, true⟩
      (by decide) (by decide) rfl rfl).1 rfl).1 ⟨1, "Tom", "/image/tom.png"⟩ (by decide)

/-- C8: a create request with no file part named `image`, or whose file
part cannot be persisted, fails with `ValidationError` (HTTP 400) with no
effect at all — in particular no row is inserted. -/
theorem c8_missing_image (parts : Parts) (env : AddEnv)
    (h : takeLastFile parts.files "image" = none ∨ env.persistOk = false) :
    add_cat_endpoint parts env = (.failure .ValidationError, noEff)
    ∧ httpOf 201 (add_cat_endpoint parts env).1 = some 400
    ∧ (add_cat_endpoint parts env).2.inserted = [] := by
  have h1 : add_cat_endpoint parts env = (.failure .ValidationError, noEff) := by
    rcases h with h | h
    · simp [add_cat_endpoint, h]
    · cases htake : takeLastFile parts.files "image" with
      | none => simp [add_cat_endpoint, htake]
      | some f => simp [add_cat_endpoint, htake, h]
  exact ⟨h1, by rw [h1]; rfl, by rw [h1]; rfl⟩

/-- Witness for C8 at a request with no file parts. -/
theorem c8_witness :
    add_cat_endpoint ⟨[], [("name", "Tom")]⟩ ⟨true, true, true, true⟩
      = (.failure .ValidationError, noEff)
    ∧ httpOf 201 (add_cat_endpoint ⟨[], [("name", "Tom")]⟩ ⟨true, true, true, true⟩).1
        = some 400
    ∧ (add_cat_endpoint ⟨[], [("name", "Tom")]⟩ ⟨true, true, true, true⟩).2.inserted = [] :=
  c8_missing_image ⟨[], [("name", "Tom")]⟩ ⟨true, true, true, true⟩ (Or.inl rfl)

/-- C9 counterexample: a create request whose `name` text field is present
but empty is not rejected — the handler succeeds and inserts a row whose
`name` is the empty string. -/
theorem c9_counterexample :
    (add_cat_endpoint ⟨[("image", "c.png")], [("name", "")]⟩ ⟨true, true, true, true⟩).1
      = .success ()
    ∧ (add_cat_endpoint ⟨[("image", "c.png")], [("name", "")]⟩ ⟨true, true, true, true⟩).2.inserted
      = [{ name := "", image_path := "/image/c.png" }] := by decide

/-- C9 amended: the `name` text field must be present; a create request
without one (once a connection was obtained) fails with `ValidationError`
(HTTP 400) and inserts no row. An empty `name` is accepted as-is. -/
theorem c9_amended (parts : Parts) (env : AddEnv)
    (hp : env.poolOk = true)
    (hn : hmLookup (collectPairs parts.texts) "name" = none) :
    (add_cat_endpoint parts env).1 = .failure .ValidationError
    ∧ (add_cat_endpoint parts env).2.inserted = []
    ∧ httpOf 201 (add_cat_endpoint parts env).1 = some 400 := by
  cases htake : takeLastFile parts.files "image" with
  | none => simp [add_cat_endpoint, htake, httpOf, statusOf, noEff]
  | some f =>
    cases hper : env.persistOk with
    | false => simp [add_cat_endpoint, htake, hper, httpOf, statusOf, noEff]
    | true => simp [add_cat_endpoint, htake, hper, hp, hn, httpOf, statusOf]

/-- Witness for C9 (amended) at a request with an image part and no text
fields. -/
theorem c9_witness :
    (add_cat_endpoint ⟨[("image", "c.png")], []⟩ ⟨true, true, true, true⟩).1
      = .failure .ValidationError
    ∧ (add_cat_endpoint ⟨[("image", "c.png")], []⟩ ⟨true, true, true, true⟩).2.inserted = []
    ∧ httpOf 201 (add_cat_endpoint ⟨[("image", "c.png")], []⟩ ⟨true, true, true, true⟩).1
        = some 400 :=
  c9_amended ⟨[("image", "c.png")], []⟩ ⟨true, true, true, true⟩ rfl rfl

/-- C1 counterexample: a create request with a valid image part but no
`name` field fails validation, yet the image file has been written and a
pool connection acquired before the failure. -/
theorem c1_counterexample :
    (add_cat_endpoint ⟨[("image", "cat.png")], []⟩ ⟨true, true, true, true⟩).1
      = .failure .ValidationError
    ∧ (add_cat_endpoint ⟨[("image", "cat.png")], []⟩ ⟨true, true, true, true⟩).2.filesWritten
      = ["./image/cat.png"]
    ∧ (add_cat_endpoint ⟨[("image", "cat.png")], []⟩ ⟨true, true, true, true⟩).2.poolAcquired
      = 1 := by decide

/-- C1 amended: only the `image` part's validation precedes resource use —
a request with no usable `image` part acquires no connection and writes no
file; a request failing `name` validation has already persisted the upload
and acquired a pool connection, because the `name` check runs after both. -/
theorem c1_amended (parts : Parts) (env : AddEnv) (f : String)
    (himg : takeLastFile parts.files "image" = some f)
    (hper : env.persistOk = true) (hp : env.poolOk = true)
    (hn : hmLookup (collectPairs parts.texts) "name" = none) :
    add_cat_endpoint parts env
      = (.failure .ValidationError, { filesWritten := ["./image/" ++ f], poolAcquired := 1 })
    ∧ (takeLastFile parts.files "image" = none →
        add_cat_endpoint parts env = (.failure .ValidationError, noEff)) := by
  constructor
  · simp [add_cat_endpoint, himg, hper, hp, hn]
  · intro hnone
    rw [himg] at hnone
    exact absurd hnone (by simp)

/-- Witness for C1 (amended) at a request with image part `cat.png` and no
text fields. -/
theorem c1_witness :
    add_cat_endpoint ⟨[("image", "cat.png")], []⟩ ⟨true, true, true, true⟩
      = (.failure .ValidationError,
          { filesWritten := ["./image/" ++ "cat.png"], poolAcquired := 1 })
    ∧ (takeLastFile (⟨[("image", "cat.png")], []⟩ : Parts).files "image" = none →
        add_cat_endpoint ⟨[("image", "cat.png")], []⟩ ⟨true, true, true, true⟩
          = (.failure .ValidationError, noEff)) :=
  c1_amended ⟨[("image", "cat.png")], []⟩ ⟨true, true, true, true⟩ "cat.png"
    (by decide) rfl rfl rfl

/-- C2: evaluation of the create handler at the claim's failing inputs.
A rejected insert yields `ValidationError` (HTTP 400), not
`UnexpectedError` (HTTP 500); a failed blocking-pool dispatch yields
`DBPoolGetError`, not `UnexpectedError` (main.rs lines 127-134, whose log
messages are swapped relative to the variants returned). -/
theorem c2_code_divergence :
    (add_cat_endpoint ⟨[("image", "c.png")], [("name", "Tom")]⟩ ⟨true, true, true, false⟩).1
      = .failure .ValidationError
    ∧ httpOf 201
        (add_cat_endpoint ⟨[("image", "c.png")], [("name", "Tom")]⟩ ⟨true, true, true, false⟩).1
      = some 400
    ∧ (add_cat_endpoint ⟨[("image", "c.png")], [("name", "Tom")]⟩ ⟨true, true, false, true⟩).1
      = .failure .DBPoolGetError
    ∧ (add_cat_endpoint ⟨[("image", "c.png")], [("name", "Tom")]⟩ ⟨true, true, false, true⟩).1
      ≠ .failure .UnexpectedError := by decide

/-- Stripping the leading relative-path marker from a path persisted under
`./image` always succeeds and yields the server-relative path. -/
theorem stripDot_image (f : String) :
    stripPrefixChar ("./image/" ++ f) '.' = some ("/image/" ++ f) := rfl

/-- A path of the form `/image/<f>` starts with `/image/`. -/
theorem starts_image (f : String) : strStartsWith ("/image/" ++ f) "/image/" = true := rfl

/-- A path of the form `/image/<f>` does not start with `.`. -/
theorem not_starts_dot (f : String) : strStartsWith ("/image/" ++ f) "." = false := rfl

/-- C7: on every successful create, the image paths of the inserted rows
are exactly the persisted file paths with the leading relative-path marker
stripped, and every inserted `image_path` starts with `/image/` and never
with `.`. -/
theorem c7_image_path (parts : Parts) (env : AddEnv) (r : Unit) (eff : Effects)
    (h : add_cat_endpoint parts env = (.success r, eff)) :
    eff.inserted.map (fun nc => nc.image_path)
      = eff.filesWritten.filterMap (fun fp => stripPrefixChar fp '.')
    ∧ eff.inserted.all
        (fun nc => strStartsWith nc.image_path "/image/"
          && !(strStartsWith nc.image_path ".")) = true := by
  cases htake : takeLastFile parts.files "image" with
  | none => simp [add_cat_endpoint, htake] at h
  | some f =>
    cases hper : env.persistOk with
    | false => simp [add_cat_endpoint, htake, hper] at h
    | true =>
      cases hpool : env.poolOk with
      | false => simp [add_cat_endpoint, htake, hper, hpool] at h
      | true =>
        cases hn : hmLookup (collectPairs parts.texts) "name" with
        | none => simp [add_cat_endpoint, htake, hper, hpool, hn] at h
        | some nm =>
          cases hblock : env.blockOk with
          | false =>
            simp [add_cat_endpoint, htake, hper, hpool, hn, stripDot_image, hblock] at h
          | true =>
            cases hins : env.insertOk with
            | false =>
              simp [add_cat_endpoint, htake, hper, hpool, hn, stripDot_image, hblock,
                hins] at h
            | true =>
              rw [add_cat_endpoint] at h
              simp only [htake, hper, hpool, hn, stripDot_image, hblock, hins,
                Bool.not_true, Bool.false_eq_true, if_false, ite_false,
                Prod.mk.injEq] at h
              obtain ⟨-, heff⟩ := h
              subst heff
              refine ⟨?_, ?_⟩
              · simp [stripDot_image]
              · simp [starts_image, not_starts_dot]

/-- Witness for C7 at a concrete successful create. -/
theorem c7_witness :
    ([{ name := "Tom", image_path := "/image/tom.png" }] : List NewCat).map
        (fun nc => nc.image_path)
      = (["./image/tom.png"] : List String).filterMap (fun fp => stripPrefixChar fp '.')
    ∧ ([{ name := "Tom", image_path := "/image/tom.png" }] : List NewCat).all
        (fun nc => strStartsWith nc.image_path "/image/"
          && !(strStartsWith nc.image_path ".")) = true :=
  c7_image_path ⟨[("image", "tom.png")], [("name", "Tom")]⟩ ⟨true, true, true, true⟩ ()
    { filesWritten := ["./image/tom.png"], poolAcquired := 1, queriesRun := 1,
      inserted := [{ name := "Tom", image_path := "/image/tom.png" }] } (by decide)

/-- Looking up `q` after inserting `(k, v)` finds `v` exactly when `q`
is `k`, and is otherwise unchanged. -/
theorem hmLookup_hmInsert (m : List (String × String)) (k v q : String) :
    hmLookup (hmInsert m k v) q
      = if (k == q) = true then some v else hmLookup m q := by
  induction m with
  | nil => simp [hmInsert, hmLookup]
  | cons a rest ih =>
    obtain ⟨ka, va⟩ := a
    by_cases hk : (ka == k) = true
    · have hkk : ka = k := by simpa using hk
      subst hkk
      simp only [hmInsert, beq_self_eq_true, if_true, hmLookup]
      by_cases hqq : (ka == q) = true <;> simp [hqq]
    · have hk2 : (ka == k) = false := Bool.eq_false_iff.mpr hk
      by_cases hq : (ka == q) = true
      · have hqq : ka = q := by simpa using hq
        subst hqq
        have hkq : (k == ka) = false := by
          simp only [beq_eq_false_iff_ne]
          intro h2
          exact hk (by simp [h2])
        simp [hmInsert, hmLookup, hk2, hkq]
      · have hq2 : (ka == q) = false := Bool.eq_false_iff.mpr hq
        simp [hmInsert, hmLookup, hk2, hq2, ih]

/-- Looking up `k` in the map folded from pairs left-to-right yields the
value at the last occurrence of `k` among the pairs, falling back to the
initial map. -/
theorem hmLookup_foldl (ps : List (String × String)) (m : List (String × String))
    (k : String) :
    hmLookup (ps.foldl (fun acc p => hmInsert acc p.1 p.2) m) k
      = ((ps.reverse.find? (fun p => p.1 == k)).map (fun p => p.2)).or (hmLookup m k) := by
  induction ps using List.reverseRecOn with
  | nil => simp
  | append_singleton ps p ih =>
    obtain ⟨pk, pv⟩ := p
    rw [List.foldl_append, List.foldl_cons, List.foldl_nil, hmLookup_hmInsert,
      List.reverse_append]
    by_cases hk : (pk == k) = true
    · simp [hk]
    · simp [Bool.eq_false_iff.mpr hk, ih]

/-- C10: the value a create request reads for a repeated text field from
the collected field map is the value of the last occurrence of that field
in part order — last value wins. -/
theorem c10_last_value_wins (ps : List (String × String)) (k : String) :
    hmLookup (collectPairs ps) k = lastOccurrence ps k := by
  rw [collectPairs, lastOccurrence, hmLookup_foldl ps [] k]
  simp [hmLookup]

end Catdex
